import Mathlib

/-!
Shallow embedding of the `waterfall` pipeline engine
(`src/waterfall/interface.py`): the stage-execution engine
(`Waterfall._handle_segment` and its three stage handlers), the builder
surface (`pipe` / `save` / `nest` / `run`), and the Tier-2
content-addressed codec (`LocalFall.dump`).

Python's mutable instance state (`self._values`, and the kwargs dict each
func stage holds by reference) is threaded explicitly: the engine maps a
state to a result list plus a successor state, and `run` returns the
updated instance alongside the collected results.
-/

/-- Python values flowing through a pipeline, restricted to the fragment the
engine itself inspects: `None`, integers, strings and lists. -/
inductive Value where
  | none
  | int (n : Int)
  | str (s : String)
  | list (vs : List Value)

mutual
/-- Decidable equality for `Value` (the nested `list` constructor rules out
the derive handler). -/
def Value.decEq : (a b : Value) → Decidable (a = b)
  | Value.none, Value.none => isTrue rfl
  | Value.none, Value.int _ => isFalse (fun hc => Value.noConfusion hc)
  | Value.none, Value.str _ => isFalse (fun hc => Value.noConfusion hc)
  | Value.none, Value.list _ => isFalse (fun hc => Value.noConfusion hc)
  | Value.int _, Value.none => isFalse (fun hc => Value.noConfusion hc)
  | Value.int a, Value.int b =>
    if h : a = b then isTrue (by rw [h]) else
      isFalse (by intro hc; injection hc; contradiction)
  | Value.int _, Value.str _ => isFalse (fun hc => Value.noConfusion hc)
  | Value.int _, Value.list _ => isFalse (fun hc => Value.noConfusion hc)
  | Value.str _, Value.none => isFalse (fun hc => Value.noConfusion hc)
  | Value.str _, Value.int _ => isFalse (fun hc => Value.noConfusion hc)
  | Value.str a, Value.str b =>
    if h : a = b then isTrue (by rw [h]) else
      isFalse (by intro hc; injection hc; contradiction)
  | Value.str _, Value.list _ => isFalse (fun hc => Value.noConfusion hc)
  | Value.list _, Value.none => isFalse (fun hc => Value.noConfusion hc)
  | Value.list _, Value.int _ => isFalse (fun hc => Value.noConfusion hc)
  | Value.list _, Value.str _ => isFalse (fun hc => Value.noConfusion hc)
  | Value.list as, Value.list bs =>
    match Value.decEqList as bs with
    | isTrue h => isTrue (by rw [h])
    | isFalse h => isFalse (by intro hc; injection hc; contradiction)

/-- Elementwise decidable equality for lists of `Value`. -/
def Value.decEqList : (as bs : List Value) → Decidable (as = bs)
  | [], [] => isTrue rfl
  | [], _ :: _ => isFalse (fun hc => List.noConfusion hc)
  | _ :: _, [] => isFalse (fun hc => List.noConfusion hc)
  | a :: as, b :: bs =>
    match Value.decEq a b with
    | isFalse h => isFalse (by intro hc; injection hc; contradiction)
    | isTrue h1 =>
      match Value.decEqList as bs with
      | isTrue h2 => isTrue (by rw [h1, h2])
      | isFalse h => isFalse (by intro hc; injection hc; contradiction)
end

instance : DecidableEq Value := Value.decEq

/-- The `is None` identity test Python applies to the previous value. -/
def Value.isNone : Value → Bool
  | Value.none => true
  | _ => false

/-- A Python dict with string keys as the engine uses them (keyword-argument
dicts and `self._values`): an insertion-ordered association list. -/
abbrev PyDict := List (String × Value)

/-- Dict lookup `m[k]`: the first binding of `k` wins (builder-produced
dicts bind each key at most once). -/
def pyGet (m : PyDict) (k : String) : Option Value :=
  match m with
  | [] => Option.none
  | p :: rest => if p.1 == k then some p.2 else pyGet rest k

/-- Dict assignment `m[k] = v` on an insertion-ordered dict: overwrite in
place when the key is present, append at the end otherwise. -/
def pySet (m : PyDict) (k : String) (v : Value) : PyDict :=
  match m with
  | [] => [(k, v)]
  | p :: rest => if p.1 == k then (k, v) :: rest else p :: pySet rest k v

/-- `m.update(upd)`: assign every pair of `upd`, left to right. -/
def dictUpdate (m : PyDict) (upd : PyDict) : PyDict :=
  List.foldl (fun acc kv => pySet acc kv.1 kv.2) m upd

/-- The Python exceptions the embedded code can raise.  `keyError` (a
`LookupError` subclass) comes from `self._values[k]` on a missing name;
`unboundLocalError` (a `NameError` subclass) from `_handle_segment` reading
its `handler` local when no `spec['type']` branch assigned it;
`attributeError` from `val.__name__` on a callable with no declared name;
`ioError` from a failed file write in `LocalFall.dump`.  The constructor
`configurationError` carries the error class named by the specification:
the code defines no such class and never raises it. -/
inductive PyErr where
  | keyError (k : String)
  | unboundLocalError
  | attributeError
  | ioError
  | configurationError
  deriving DecidableEq

/-- Decidable equality of `Except` results, so concrete runs can be checked
by `decide`. -/
instance exceptDecEq {e a : Type} [DecidableEq e] [DecidableEq a] : DecidableEq (Except e a)
  | Except.error x, Except.error y =>
    if h : x = y then isTrue (by rw [h]) else
      isFalse (by intro hc; injection hc; contradiction)
  | Except.error _, Except.ok _ => isFalse (fun hc => Except.noConfusion hc)
  | Except.ok _, Except.error _ => isFalse (fun hc => Except.noConfusion hc)
  | Except.ok x, Except.ok y =>
    if h : x = y then isTrue (by rw [h]) else
      isFalse (by intro hc; injection hc; contradiction)

/-- A stage callable.  The engine calls `func(*args, **kwargs)` and drains
the values it yields; callables are external collaborators, modelled as
pure functions from the built positional-argument list and keyword dict to
the list of yielded values. -/
abbrev Producer := List Value → PyDict → List Value

/-- One entry of `self._pipes`.  A `func` spec keeps its kwargs dict by
reference: `ref` indexes the heap of kwargs containers held by the owning
instance, so the in-place `kwargs.update` performed by `_run_func_segment`
stays visible through the stored spec, exactly as dict aliasing makes it in
Python.  A `nest` spec carries the embedded instance's pipes, kwargs heap
and value store.  `other` stands for a spec dict whose `'type'` tag is none
of `'func'`/`'nest'`/`'save'`. -/
inductive Stage where
  | func (f : Producer) (args : List Value) (ref : Nat) (retrieve : List String)
  | nest (subPipes : List Stage) (subHeap : List PyDict) (subValues : PyDict)
  | save (name : String)
  | other (tag : String)

/-- The mutable state of one `Waterfall` instance during execution:
`self._values` plus the heap of kwargs dicts referenced by its func specs. -/
structure WState where
  values : PyDict
  heap : List PyDict
  deriving DecidableEq

/-- The dict comprehension `{k: self._values[k] for k in spec['retrieve']}`
of `_run_func_segment`: `self._values[k]` raises `KeyError` (a
`LookupError` subclass) at the first name that was never saved. -/
def retrieveAll (values : PyDict) : List String → Except PyErr PyDict
  | [] => Except.ok []
  | k :: ks =>
    match pyGet values k with
    | Option.none => Except.error (PyErr.keyError k)
    | some v =>
      match retrieveAll values ks with
      | Except.error e => Except.error e
      | Except.ok ps => Except.ok ((k, v) :: ps)

mutual
/-- `Waterfall._handle_segment` fused with the three stage handlers it
dispatches to.  Empty list: yield `prev` once.  `func`
(`_run_func_segment`): build the retrieved pairs, `kwargs.update` them into
the stage's stored dict (writing the mutation back through `ref`), prepend
`prev` to the positional arguments unless it `is None`, call the producer
and fan out over its values.  `nest` (`_run_nest_segment`): run the
embedded instance with `init=prev` and yield its results — the handler's
`remaining_pipes` argument is ignored, so the rest of the outer pipeline is
dropped; the embedded instance's own post-run state is not modelled as
persisting into later invocations of the same spec.  `save`
(`_save_segment`): write `prev` into the value store and continue with
`prev` unchanged.  An unrecognized tag leaves `handler` unbound, so the
`for r in handler(...)` line raises `UnboundLocalError`. -/
def handleSegment : List Stage → Value → WState → Except PyErr (List Value × WState)
  | [], prev, st => Except.ok ([prev], st)
  | spec :: rest, prev, st =>
    match spec with
    | Stage.func f args ref retr =>
      match retrieveAll st.values retr with
      | Except.error e => Except.error e
      | Except.ok pairs =>
        let kwargs := dictUpdate (st.heap.getD ref []) pairs
        let st1 : WState := { st with heap := st.heap.set ref kwargs }
        let callArgs := if prev.isNone then args else prev :: args
        fanOut (f callArgs kwargs) rest st1
    | Stage.nest subPipes subHeap subValues =>
      match handleSegment subPipes prev { values := subValues, heap := subHeap } with
      | Except.error e => Except.error e
      | Except.ok (rs, _) => Except.ok (rs, st)
    | Stage.save name =>
      handleSegment rest prev { st with values := pySet st.values name prev }
    | Stage.other _ => Except.error PyErr.unboundLocalError
termination_by pipes _ _ => (sizeOf pipes, 0)

/-- The fan-out loop of `_run_func_segment`: `for retval in func(...): for
r in self._handle_segment(remaining, retval): yield r`, with the instance
state threaded from one branch to the next. -/
def fanOut : List Value → List Stage → WState → Except PyErr (List Value × WState)
  | [], _, st => Except.ok ([], st)
  | v :: vs, rest, st =>
    match handleSegment rest v st with
    | Except.error e => Except.error e
    | Except.ok (rs, st1) =>
      match fanOut vs rest st1 with
      | Except.error e => Except.error e
      | Except.ok (rs2, st2) => Except.ok (rs ++ rs2, st2)
termination_by vs rest _ => (sizeOf rest, vs.length + 1)
end

/-- A `Waterfall` instance: the ordered stage list `self._pipes`, the heap
of kwargs dicts its func specs reference, and `self._values`.  The
`**config` mapping is omitted: only `LocalFall` reads it (its `pickledir`
entry), modelled as an explicit argument of `LocalFall.dump`. -/
structure Waterfall where
  pipes : List Stage
  heap : List PyDict
  values : PyDict

/-- `Waterfall.__init__`: empty pipe list and empty value store.  The value
store belongs to the instance — `run` never clears it. -/
def Waterfall.init : Waterfall :=
  { pipes := [], heap := [], values := [] }

/-- The retrieve normalization at the top of `Waterfall.pipe`:
`kwargs.get('retrieve')`; an absent key or an explicit `None` becomes `[]`;
a single string is wrapped into a one-element list; a list is used as-is
(the modelled fragment takes its elements to be the string names `save`
produces). -/
def pipeRetrieve (kwargs : PyDict) : List String :=
  match pyGet kwargs "retrieve" with
  | Option.none => []
  | some Value.none => []
  | some (Value.str s) => [s]
  | some (Value.list vs) =>
      vs.filterMap (fun v =>
        match v with
        | Value.str s => some s
        | _ => Option.none)
  | some _ => []

/-- `Waterfall.pipe(func, *args, **kwargs)`: append a func spec.  The
kwargs dict is stored as passed — including its `'retrieve'` entry, which
Python does not remove — and the spec holds it by reference (a fresh heap
cell). -/
def Waterfall.pipe (w : Waterfall) (f : Producer) (args : List Value) (kwargs : PyDict) : Waterfall :=
  { w with
    pipes := w.pipes ++ [Stage.func f args w.heap.length (pipeRetrieve kwargs)],
    heap := w.heap ++ [kwargs] }

/-- `Waterfall.save(varname)`: append a save spec. -/
def Waterfall.save (w : Waterfall) (name : String) : Waterfall :=
  { w with pipes := w.pipes ++ [Stage.save name] }

/-- `Waterfall.nest(nestfunc)`: append a nest spec carrying the embedded
instance. -/
def Waterfall.nest (w : Waterfall) (sub : Waterfall) : Waterfall :=
  { w with pipes := w.pipes ++ [Stage.nest sub.pipes sub.heap sub.values] }

/-- `Waterfall.run(init=None)`: collect every value `_handle_segment`
yields for the instance's pipe list, starting from the instance's current
state — `self._values` is whatever previous runs and saves left there.  The
updated instance is returned alongside the results. -/
def Waterfall.run (w : Waterfall) (init : Value) : Except PyErr (List Value × Waterfall) :=
  match handleSegment w.pipes init { values := w.values, heap := w.heap } with
  | Except.error e => Except.error e
  | Except.ok (rs, st) => Except.ok (rs, { w with values := st.values, heap := st.heap })

/-- `LocalFall.dump`, the Tier-2 content-addressed codec.  The callable is
abstracted to its optional declared `__name__` and the hex digest of its
serialized bytes; the filesystem to a predicate saying which paths fail to
open for writing (raising `IOError`).  `val.__name__` on a callable without
a declared name raises `AttributeError`, which the `except IOError` clause
does not catch; an `IOError` from the name-based write is caught and the
digest-alone path is written instead; an `IOError` from that fallback write
propagates. -/
def LocalFall.dump (pickledir : String) (writeFails : String → Bool)
    (valName : Option String) (digest : String) : Except PyErr String :=
  match valName with
  | Option.none => Except.error PyErr.attributeError
  | some n =>
    let fname := pickledir ++ "/" ++ (n ++ "_" ++ digest)
    if writeFails fname then
      let fname2 := pickledir ++ "/" ++ digest
      if writeFails fname2 then Except.error PyErr.ioError
      else Except.ok fname2
    else Except.ok fname

/-! Helper lemmas about the engine. -/

/-- With no remaining stages, the fan-out loop yields the produced values
themselves, one result per value, leaving the state untouched. -/
theorem fanOut_nil_rest (vs : List Value) (st : WState) :
    fanOut vs [] st = Except.ok (vs, st) := by
  induction vs with
  | nil => simp [fanOut]
  | cons v vs ih => simp [fanOut, handleSegment, ih]

/-- Reading back a key just assigned into a dict returns the assigned
value. -/
theorem pyGet_pySet_self (m : PyDict) (k : String) (v : Value) :
    pyGet (pySet m k v) k = some v := by
  induction m with
  | nil => simp [pySet, pyGet]
  | cons p rest ih =>
    by_cases h : p.1 == k
    · simp [pySet, pyGet, h]
    · simp [pySet, pyGet, h, ih]

/-- If some requested name is absent from the value store, the retrieve
comprehension raises `KeyError` for the first absent name. -/
theorem retrieveAll_missing (values : PyDict) (retr : List String) (k : String)
    (hk : k ∈ retr) (hmiss : pyGet values k = Option.none) :
    ∃ k', pyGet values k' = Option.none ∧
      retrieveAll values retr = Except.error (PyErr.keyError k') := by
  induction retr with
  | nil => cases hk
  | cons k0 ks ih =>
    cases h0 : pyGet values k0 with
    | none => exact ⟨k0, h0, by simp [retrieveAll, h0]⟩
    | some v0 =>
      have hk' : k ∈ ks := by
        cases List.mem_cons.mp hk with
        | inl h => cases h; rw [hmiss] at h0; cases h0
        | inr h => exact h
      obtain ⟨k', hk'', herr⟩ := ih hk'
      exact ⟨k', hk'', by simp [retrieveAll, h0, herr]⟩

/-- Fanning `ms` into one remaining stage whose producer always yields `ns`
(with empty retrieve list) yields `ns` once per element of `ms` and leaves
the state `⟨[], [[], []]⟩` unchanged. -/
theorem fanOut_const_inner (g : Producer) (ns : List Value)
    (hg : ∀ a k, g a k = ns) (ms : List Value) :
    fanOut ms [Stage.func g [] 1 []] ⟨[], [[], []]⟩ =
      Except.ok (ms.flatMap fun _ => ns, ⟨[], [[], []]⟩) := by
  induction ms with
  | nil => simp [fanOut]
  | cons m ms ih =>
    simp [fanOut, handleSegment, retrieveAll, dictUpdate, ih, hg, fanOut_nil_rest]

/-- A list bound to a constant list multiplies the lengths. -/
theorem length_bind_const (ms ns : List Value) :
    (ms.flatMap fun _ => ns).length = ms.length * ns.length := by
  induction ms with
  | nil => simp
  | cons m ms ih => simp [List.flatMap_cons, ih, Nat.succ_mul]; omega

/-- Fanning `ws` into one remaining stage that retrieves `"x"` and yields
the retrieved value: every branch yields the value stored under `"x"`,
whatever the branch's previous value is and whatever the stage's kwargs
cell currently holds. -/
theorem fanOut_retrieve_x (v : Value) (ws : List Value) (cell : PyDict) :
    ∃ st', fanOut ws
        [Stage.func (fun _ kw => [(pyGet kw "x").getD Value.none]) [] 1 ["x"]]
        ⟨[("x", v)], [[], cell]⟩ =
      Except.ok (ws.map fun _ => v, st') := by
  induction ws generalizing cell with
  | nil => exact ⟨⟨[("x", v)], [[], cell]⟩, by simp [fanOut]⟩
  | cons w ws ih =>
    obtain ⟨st', h⟩ := ih (pySet cell "x" v)
    refine ⟨st', ?_⟩
    simp [fanOut, handleSegment, retrieveAll, pyGet, dictUpdate,
      pyGet_pySet_self, fanOut_nil_rest, h]

/-! Claim theorems. -/

/-- C1: the claim says a `NestStage` followed by further stages runs the
sub-pipeline and then recurses into the remaining outer stages with each of
its results.  The code does not: `_run_nest_segment` ignores its
`remaining_pipes` argument, so everything after a nest stage is dropped.
First conjunct: executing a nest stage gives the same outcome whatever the
remaining stages are.  Second conjunct: concretely, `nest` of a sub-pipeline
producing `2` followed by a stage producing `99` yields `[2]` — the claim
demands `[99]`. -/
theorem C1_nest_drops_remaining_stages :
    (∀ (sp : List Stage) (sh : List PyDict) (sv : PyDict) (rest : List Stage)
        (prev : Value) (st : WState),
      handleSegment (Stage.nest sp sh sv :: rest) prev st =
        handleSegment [Stage.nest sp sh sv] prev st)
    ∧ (Waterfall.run ((Waterfall.init.nest
          (Waterfall.init.pipe (fun _ _ => [Value.int 2]) [] [])).pipe
          (fun _ _ => [Value.int 99]) [] []) (Value.int 1)).map Prod.fst
        = Except.ok [Value.int 2] := by
  constructor
  · intro sp sh sv rest prev st
    simp [handleSegment]
  · simp [Waterfall.run, Waterfall.init, Waterfall.nest, Waterfall.pipe, pipeRetrieve,
      pyGet, handleSegment, fanOut, retrieveAll, dictUpdate, Value.isNone, Except.map]

/-- C2: the claim says executing a `FuncStage` leaves its stored argument
containers unchanged.  The code's `kwargs.update(...)` mutates the stage's
stored kwargs dict in place: after `save('x')` and a stage built with
`retrieve='x'` and no other keywords, the stored dict — initially
`{'retrieve': 'x'}` — additionally holds `'x': 5`, so repeated runs and
snapshots see the mutated container.  (The positional-argument tuple is only
rebound locally and indeed never mutated.) -/
theorem C2_func_stage_mutates_stored_kwargs :
    ((Waterfall.init.save "x").pipe (fun _ _ => [Value.int 0]) []
        [("retrieve", Value.str "x")]).heap = [[("retrieve", Value.str "x")]]
    ∧ (Waterfall.run ((Waterfall.init.save "x").pipe (fun _ _ => [Value.int 0]) []
          [("retrieve", Value.str "x")]) (Value.int 5)).map (fun p => p.2.heap)
        = Except.ok [[("retrieve", Value.str "x"), ("x", Value.int 5)]]
    ∧ ([[("retrieve", Value.str "x"), ("x", Value.int 5)]] : List PyDict)
        ≠ [[("retrieve", Value.str "x")]] := by
  refine ⟨?_, ?_, by decide⟩
  · simp [Waterfall.init, Waterfall.save, Waterfall.pipe]
  · simp [Waterfall.run, Waterfall.init, Waterfall.save, Waterfall.pipe, pipeRetrieve,
      pyGet, handleSegment, fanOut, retrieveAll, dictUpdate, pySet, Value.isNone, Except.map]

/-- C3: the claim says each call to `run` starts with an empty name-to-value
mapping.  In the code `self._values` is created once in `__init__` and
`run` never clears it: after `Waterfall().save('x').run(init=5)` the
instance's store still holds `{'x': 5}` (first two conjuncts), and a run on
an instance whose store already holds `'x'` — as a previous run leaves it —
retrieves that value instead of failing with `LookupError` as a fresh store
would (third conjunct). -/
theorem C3_value_store_outlives_run :
    Waterfall.init.values = []
    ∧ ((Waterfall.init.save "x").run (Value.int 5)).map (fun p => p.2.values)
        = Except.ok [("x", Value.int 5)]
    ∧ (Waterfall.run ⟨[Stage.func (fun _ kw => [(pyGet kw "x").getD Value.none]) [] 0 ["x"]],
          [[]], [("x", Value.int 5)]⟩ Value.none).map Prod.fst
        = Except.ok [Value.int 5] := by
  refine ⟨rfl, ?_, ?_⟩
  · simp [Waterfall.run, Waterfall.init, Waterfall.save, handleSegment, pySet, Except.map]
  · simp [Waterfall.run, handleSegment, fanOut, retrieveAll, dictUpdate, pySet, pyGet,
      Value.isNone, fanOut_nil_rest, Except.map]

/-- C4 counterexample: the claim says an unrecognized stage tag fails with a
`ConfigurationError`.  Running a one-stage list whose tag is unrecognized
fails with `UnboundLocalError` — the code defines no `ConfigurationError`
class at all — so the claimed error does not occur. -/
theorem C4_counterexample :
    Waterfall.run ⟨[Stage.other "frobnicate"], [], []⟩ (Value.int 0)
        = Except.error PyErr.unboundLocalError
    ∧ Waterfall.run ⟨[Stage.other "frobnicate"], [], []⟩ (Value.int 0)
        ≠ Except.error PyErr.configurationError := by
  have h : Waterfall.run ⟨[Stage.other "frobnicate"], [], []⟩ (Value.int 0)
      = Except.error PyErr.unboundLocalError := by
    simp [Waterfall.run, handleSegment]
  refine ⟨h, ?_⟩
  rw [h]
  intro hc
  injection hc with hc2
  exact PyErr.noConfusion hc2

/-- C4 amended: executing a stage list containing a stage whose type tag is
none of func/nest/save fails when that stage is reached — but with an
`UnboundLocalError` (the `handler` local of `_handle_segment` is never
bound; no `ConfigurationError` exists), and only when it is actually
reached: if the upstream producer yields no value the unrecognized stage is
pruned away and the run succeeds. -/
theorem C4_unknown_tag_unbound_handler (vs : List Value) (tag : String) (v : Value)
    (hvs : vs ≠ []) :
    Waterfall.run ⟨[Stage.func (fun _ _ => vs) [] 0 [], Stage.other tag], [[]], []⟩ v
        = Except.error PyErr.unboundLocalError
    ∧ Waterfall.run ⟨[Stage.func (fun _ _ => ([] : List Value)) [] 0 [],
          Stage.other tag], [[]], []⟩ v
        = Except.ok ([], ⟨[Stage.func (fun _ _ => ([] : List Value)) [] 0 [],
          Stage.other tag], [[]], []⟩) := by
  constructor
  · obtain ⟨v0, vs', rfl⟩ := List.exists_cons_of_ne_nil hvs
    simp [Waterfall.run, handleSegment, fanOut, retrieveAll, dictUpdate]
  · simp [Waterfall.run, handleSegment, fanOut, retrieveAll, dictUpdate]

/-- C4 amended, witness: the hypotheses hold at a producer yielding one
value. -/
theorem C4_unknown_tag_unbound_handler_witness :
    Waterfall.run ⟨[Stage.func (fun _ _ => [Value.int 1]) [] 0 [], Stage.other "frobnicate"],
          [[]], []⟩ Value.none
        = Except.error PyErr.unboundLocalError
    ∧ Waterfall.run ⟨[Stage.func (fun _ _ => ([] : List Value)) [] 0 [],
          Stage.other "frobnicate"], [[]], []⟩ Value.none
        = Except.ok ([], ⟨[Stage.func (fun _ _ => ([] : List Value)) [] 0 [],
          Stage.other "frobnicate"], [[]], []⟩) :=
  C4_unknown_tag_unbound_handler [Value.int 1] "frobnicate" Value.none (by decide)

/-- C5 counterexample: the claim says that whenever no declared name is
available on the callable, `LocalFall.dump` falls back to a file named by
the digest alone and returns that path.  With no declared name the code
instead raises the `AttributeError` from `val.__name__`, which the
`except IOError` clause does not catch — even when every write would
succeed. -/
theorem C5_counterexample :
    LocalFall.dump "p" (fun _ => false) Option.none "9a"
        = Except.error PyErr.attributeError
    ∧ LocalFall.dump "p" (fun _ => false) Option.none "9a"
        ≠ Except.ok ("p" ++ "/" ++ "9a") := by
  refine ⟨rfl, ?_⟩
  intro hc
  exact Except.noConfusion hc

/-- C5 amended: `dump` persists to `<declared-name>_<hex-digest>` under the
configured directory; only when that name-based write fails with an
`IOError` does it fall back to the file named by the digest alone and
return that path without propagating the failure.  When the callable has no
declared name, the `AttributeError` propagates and no fallback happens. -/
theorem C5_fallback_only_on_ioerror (dir n d : String) (wf : String → Bool)
    (h1 : wf (dir ++ "/" ++ (n ++ "_" ++ d)) = true)
    (h2 : wf (dir ++ "/" ++ d) = false) :
    LocalFall.dump dir wf (some n) d = Except.ok (dir ++ "/" ++ d)
    ∧ LocalFall.dump dir wf Option.none d = Except.error PyErr.attributeError := by
  constructor
  · simp [LocalFall.dump, h1, h2]
  · rfl

/-- C5 amended, witness: a filesystem on which exactly the name-based path
fails to open. -/
theorem C5_fallback_only_on_ioerror_witness :
    LocalFall.dump "p" (fun s => s == "p/f_9a") (some "f") "9a"
        = Except.ok ("p" ++ "/" ++ "9a")
    ∧ LocalFall.dump "p" (fun s => s == "p/f_9a") Option.none "9a"
        = Except.error PyErr.attributeError :=
  C5_fallback_only_on_ioerror "p" "f" "9a" (fun s => s == "p/f_9a")
    (by decide) (by decide)

/-- C6: two chained `FuncStage`s whose producers are value-independent
(always yielding `ms` resp. `ns` whatever their arguments) yield one copy
of `ns` per element of `ms`, in order — depth-first outer-times-inner
enumeration — for a total of exactly `ms.length * ns.length` results. -/
theorem C6_chained_fanout_product (f g : Producer) (ms ns : List Value) (v : Value)
    (hf : ∀ a k, f a k = ms) (hg : ∀ a k, g a k = ns) :
    (Waterfall.run ⟨[Stage.func f [] 0 [], Stage.func g [] 1 []],
        [[], []], []⟩ v).map Prod.fst = Except.ok (ms.flatMap fun _ => ns)
    ∧ (ms.flatMap fun _ => ns).length = ms.length * ns.length := by
  constructor
  · simp [Waterfall.run, handleSegment, retrieveAll, dictUpdate, hf,
      fanOut_const_inner g ns hg, Except.map]
  · exact length_bind_const ms ns

/-- C6 witness: producers of two and one values give the two results of the
product enumeration. -/
theorem C6_chained_fanout_product_witness :
    (Waterfall.run ⟨[Stage.func (fun _ _ => [Value.int 1, Value.int 2]) [] 0 [],
        Stage.func (fun _ _ => [Value.int 3]) [] 1 []], [[], []], []⟩
        Value.none).map Prod.fst
      = Except.ok ([Value.int 1, Value.int 2].flatMap fun _ => [Value.int 3])
    ∧ ([Value.int 1, Value.int 2].flatMap fun _ => ([Value.int 3] : List Value)).length
        = [Value.int 1, Value.int 2].length * [Value.int 3].length :=
  C6_chained_fanout_product (fun _ _ => [Value.int 1, Value.int 2])
    (fun _ _ => [Value.int 3]) [Value.int 1, Value.int 2] [Value.int 3] Value.none
    (fun _ _ => rfl) (fun _ _ => rfl)

/-- C7: after `save('x')` stores the previous value `v`, a later stage
retrieving `'x'` receives `v` in every fan-out branch, however the previous
value changed in between (here: to each element of an arbitrary `ws`)
without a re-save.  And a `SaveStage` alone continues with the previous
value unchanged as exactly one continuation, its only effect being the
store write. -/
theorem C7_retrieve_sees_value_at_save_point (v : Value) (ws : List Value) :
    (Waterfall.run ⟨[Stage.save "x",
        Stage.func (fun _ _ => ws) [] 0 [],
        Stage.func (fun _ kw => [(pyGet kw "x").getD Value.none]) [] 1 ["x"]],
        [[], []], []⟩ v).map Prod.fst = Except.ok (ws.map fun _ => v)
    ∧ ∀ (name : String) (hp : List PyDict) (vals : PyDict) (p : Value),
        Waterfall.run ⟨[Stage.save name], hp, vals⟩ p
          = Except.ok ([p], ⟨[Stage.save name], hp, pySet vals name p⟩) := by
  constructor
  · obtain ⟨st', h⟩ := fanOut_retrieve_x v ws []
    simp [Waterfall.run, handleSegment, retrieveAll, dictUpdate, pySet, h, Except.map]
  · intro name hp vals p
    simp [Waterfall.run, handleSegment]

/-- C8: reaching a `FuncStage` whose retrieve keys contain a name absent
from the value store (never saved by that point of execution) fails with a
`KeyError` — Python's `KeyError` is a subclass of `LookupError`, raised by
`self._values[k]` for the first absent name. -/
theorem C8_missing_retrieve_name_fails (f : Producer) (args : List Value) (ref : Nat)
    (retr : List String) (rest : List Stage) (prev : Value) (st : WState) (k : String)
    (hk : k ∈ retr) (hmiss : pyGet st.values k = Option.none) :
    ∃ k', pyGet st.values k' = Option.none ∧
      handleSegment (Stage.func f args ref retr :: rest) prev st
        = Except.error (PyErr.keyError k') := by
  obtain ⟨k', hk', herr⟩ := retrieveAll_missing st.values retr k hk hmiss
  exact ⟨k', hk', by simp [handleSegment, herr]⟩

/-- C8 witness: a stage retrieving `'x'` against an empty store fails. -/
theorem C8_missing_retrieve_name_fails_witness :
    ∃ k', pyGet (⟨[], []⟩ : WState).values k' = Option.none ∧
      handleSegment [Stage.func (fun _ _ => []) [] 0 ["x"]] Value.none ⟨[], []⟩
        = Except.error (PyErr.keyError k') :=
  C8_missing_retrieve_name_fails (fun _ _ => []) [] 0 ["x"] [] Value.none ⟨[], []⟩ "x"
    (by decide) rfl

/-- C9: running an empty stage list is terminal — it yields the initial
value exactly once, whatever it is, and leaves the instance as it was; with
the absent marker (`None`, Python's default `init`) the result is the
one-element collection holding the marker. -/
theorem C9_empty_pipeline_yields_initial (hp : List PyDict) (vals : PyDict) (v : Value) :
    Waterfall.run ⟨[], hp, vals⟩ v = Except.ok ([v], ⟨[], hp, vals⟩)
    ∧ Waterfall.run Waterfall.init Value.none
        = Except.ok ([Value.none], Waterfall.init) := by
  constructor
  · simp [Waterfall.run, handleSegment]
  · simp [Waterfall.run, Waterfall.init, handleSegment]

/-- C10: the engine decides whether to prepend the previous value with
`prev is not None`, so a `None` previous value — whether the missing
initial value or an upstream-produced `None` — is not prepended to the
stage's positional arguments, while any non-`None` value is.  First
conjunct: a single stage whose producer yields its own positional arguments
shows the built argument list for every previous value.  Second conjunct:
an upstream producer yielding `None` then `7` drives the downstream stage
(declared arguments `[9]`) once without and once with the prepend. -/
theorem C10_none_previous_value_not_prepended (v : Value) (args : List Value) :
    (Waterfall.run ⟨[Stage.func (fun a _ => a) args 0 []], [[]], []⟩ v).map Prod.fst
        = Except.ok (if v.isNone then args else v :: args)
    ∧ (Waterfall.run ⟨[Stage.func (fun _ _ => [Value.none, Value.int 7]) [] 0 [],
          Stage.func (fun a _ => a) [Value.int 9] 1 []], [[], []], []⟩
        Value.none).map Prod.fst
        = Except.ok [Value.int 9, Value.int 7, Value.int 9] := by
  constructor
  · simp [Waterfall.run, handleSegment, retrieveAll, dictUpdate, fanOut_nil_rest,
      Except.map]
  · simp [Waterfall.run, handleSegment, fanOut, retrieveAll, dictUpdate, Value.isNone,
      fanOut_nil_rest, Except.map]
